import Mathlib

/-!
Shallow embedding of the IA-Project snake agent (src/agent.py and
src/search/search_node.py) and proofs about its planning loop.

Coordinates are pairs of integers, `(x, y)` matching Python `pos[0]`,
`pos[1]`. Directions are the four symbolic moves the agent emits.
Collaborator modules that are not part of the two source files
(`Mapping`, `SnakeGame.actions`, `SearchTree.search`) enter the model as
universally quantified inputs: the legal-action list, a view of the
mapping, and the outcome of one search episode.
-/

/-- The four symbolic directions of `DIRECTION_TO_KEY` in agent.py. -/
inductive Direction where
  | NORTH
  | WEST
  | SOUTH
  | EAST
deriving DecidableEq, Repr

/-- `DIRECTION_TO_KEY` from agent.py: symbolic direction to server key. -/
def DIRECTION_TO_KEY : Direction → String
  | .NORTH => "w"
  | .WEST => "a"
  | .SOUTH => "s"
  | .EAST => "d"

/-- The literal list `["NORTH", "WEST", "SOUTH", "EAST"]` used by the
last-resort fallback of `_get_fast_action`. -/
def allDirections : List Direction := [.NORTH, .WEST, .SOUTH, .EAST]

/-- A game state as the agent sees it: `state["body"]` (head first) and
`state["traverse"]`. -/
structure GState where
  body : List (ℤ × ℤ)
  traverse : Bool
deriving DecidableEq, Repr

/-- The directional proposal of `_get_fast_action` (agent.py lines
211-218), before the legality check: `dx = abs(head[0]-goal[0])`,
`dy = abs(head[1]-goal[1])`; if `dx > dy` move on the x axis
(`WEST` when `head[0] > goal[0]` else `EAST`), otherwise on the y axis
(`NORTH` when `head[1] > goal[1]` else `SOUTH`). -/
def fastActionProposal (head goal : ℤ × ℤ) : Direction :=
  let dx := |head.1 - goal.1|
  let dy := |head.2 - goal.2|
  if dx > dy then
    if head.1 > goal.1 then .WEST else .EAST
  else
    if head.2 > goal.2 then .NORTH else .SOUTH

/-- `Agent._get_fast_action` (agent.py lines 202-229). The legal set
`domain.actions(mapping.state)` is the input list `legal`; the two
`random.choice` calls are modelled by the index `r`: Python
`random.choice(seq)` returns `seq[i]` for a uniformly random valid
index `i`, here `r % seq.length`. -/
def get_fast_action (legal : List Direction) (head goal : ℤ × ℤ)
    (r : ℕ) : Direction :=
  let action := fastActionProposal head goal
  if action ∈ legal then
    action
  else
    if legal ≠ [] then
      legal.getD (r % legal.length) .NORTH
    else
      allDirections.getD (r % allDirections.length) .NORTH

/-- A planning goal: the dict `{"strategy": ..., "position": ...}`
built by `_find_goal`. -/
structure Goal where
  strategy : String
  position : ℤ × ℤ
deriving DecidableEq, Repr

/-- The inputs `_find_goal` and `think` read from `self.mapping`:
the current belief state, whether food / power-up tiles are known,
the closest such tiles, the exploration-frontier stream
(`next_exploration` may return a different cell on each call, so it is
a stream indexed by call number), and `nothing_new_observed`. -/
structure MappingView where
  state : GState
  observedFood : Bool
  observedSuper : Bool
  closestFood : ℤ × ℤ
  closestSuper : ℤ × ℤ
  next_exploration : ℕ → ℤ × ℤ
  nothing_new_observed : Bool → Bool

/-- `Agent._find_goal` (agent.py lines 181-200): prefer the closest
known food; else, when a power-up is known and effects are not perfect,
the closest power-up; else an exploration-frontier cell, retrying the
frontier call once when its first result equals the head
`state["body"][0]`. -/
def find_goal (m : MappingView) (perfect_effects : Bool) : Goal :=
  if m.observedFood then
    { strategy := "food", position := m.closestFood }
  else if m.observedSuper ∧ ¬perfect_effects then
    { strategy := "super", position := m.closestSuper }
  else
    let p := m.next_exploration 0
    if p = m.state.body.headI then
      { strategy := "exploration", position := m.next_exploration 1 }
    else
      { strategy := "exploration", position := p }

/-- `SearchProblem(domain, initial, goal)` as built by `think`:
the initial belief state and the goal position. -/
structure SearchProblem where
  initial : GState
  goal : ℤ × ℤ
deriving DecidableEq, Repr

/-- `SearchTree(problem, strategy)` as built by `think`. -/
structure SearchTree where
  problem : SearchProblem
  strategy : String
deriving DecidableEq, Repr

/-- The outcome of `self.tree.search(time_limit=...)` for one planning
cycle: it raises `TimeLimitExceeded`, returns a falsy value
(no solution), or succeeds, in which case `tree.inverse_plan` holds the
root-to-goal actions reversed. -/
inductive SearchOutcome where
  | timeLimitExceeded
  | noSolution
  | solved (inverse_plan : List Direction)
deriving DecidableEq, Repr

/-- The mutable fields of `Agent` that `think` and `act` touch:
`actions_plan`, `action`, `solution` (only ever written by the
fallback branches of `think`), `current_goal`, `problem`, `tree`,
`perfect_effects`. `Option` marks fields that start as `None`. -/
structure AgentState where
  actions_plan : List Direction
  action : Option Direction
  solution : Option Direction
  current_goal : Option Goal
  problem : Option SearchProblem
  tree : Option SearchTree
  perfect_effects : Bool
deriving DecidableEq, Repr

/-- `Agent.think` (agent.py lines 147-179). Inputs beyond the agent
state: the mapping view `m`, the legal-action list `legal` (read by
`_get_fast_action`), the search outcome, and the random index `r`.
When the plan is non-empty and nothing new was observed, `pop()` takes
the last element of `actions_plan`. Otherwise a goal, problem and tree
are created; on `TimeLimitExceeded` or a falsy solution the fast action
is assigned to the `solution` field (the code writes `self.solution`,
not `self.action`); on success the inverse plan is stored and its last
element popped into `action`. -/
def think (m : MappingView) (legal : List Direction)
    (outcome : SearchOutcome) (r : ℕ) (st : AgentState) : AgentState :=
  if st.actions_plan.length ≠ 0 ∧
      m.nothing_new_observed st.perfect_effects = true then
    { st with
      action := st.actions_plan.getLast?
      actions_plan := st.actions_plan.dropLast }
  else
    let goal := find_goal m st.perfect_effects
    let prob : SearchProblem := { initial := m.state, goal := goal.position }
    let tr : SearchTree := { problem := prob, strategy := "A*" }
    let st1 := { st with
      current_goal := some goal, problem := some prob, tree := some tr }
    let fa := get_fast_action legal m.state.body.headI goal.position r
    match outcome with
    | .timeLimitExceeded =>
      { st1 with solution := some fa }
    | .noSolution =>
      { st1 with solution := some fa }
    | .solved inverse_plan =>
      { st1 with
        actions_plan := inverse_plan.dropLast
        action := inverse_plan.getLast? }

/-- `Agent._action_not_possible` (agent.py lines 142-143):
`self.action not in self.domain.actions(self.mapping.state)`.
A `None` action is never a member of the legal list. -/
def action_not_possible (legal : List Direction)
    (action : Option Direction) : Bool :=
  match action with
  | none => true
  | some a => decide (a ∉ legal)

/-- The direction `Agent.act` (agent.py lines 129-140) sends to the
transport: when the chosen action is not possible it is first replaced
by `_get_fast_action`, then `DIRECTION_TO_KEY[self.action]` is sent.
`head` and `goal` are the head of the belief state and the position of
`current_goal`, read by `_get_fast_action`. -/
def act_sent (legal : List Direction) (head goal : ℤ × ℤ) (r : ℕ)
    (action : Option Direction) : Direction :=
  if action_not_possible legal action then
    get_fast_action legal head goal r
  else
    action.getD .NORTH

/-- One event the websocket delivers to an iteration of `Agent.play`
(agent.py lines 95-116): a state message whose `body` field is truthy
(`sendCloseOK` records whether the subsequent `act` send raises
`ConnectionClosedOK`), a state message with an empty or missing body
(game over), or `ConnectionClosedOK` raised by `recv` itself. -/
inductive NetEvent where
  | msgBody (sendCloseOK : Bool)
  | msgEmpty
  | closeOK
deriving DecidableEq, Repr

/-- How many times the `while True` loop of `Agent.play` calls
`self.websocket.recv()` over a finite event trace. The
`except websockets.exceptions.ConnectionClosedOK` handler only logs,
so after a clean close the loop runs another iteration and receives
again; only an empty body reaches `break`. -/
def play_receive_count : List NetEvent → ℕ
  | [] => 0
  | .closeOK :: rest => 1 + play_receive_count rest
  | .msgEmpty :: _ => 1
  | .msgBody _ :: rest => 1 + play_receive_count rest

/-- Whether the `while True` loop of `Agent.play` exits within the
given event trace: only the empty-body `break` exits it; the
clean-close handler falls through to the next iteration. -/
def play_breaks : List NetEvent → Bool
  | [] => false
  | .closeOK :: rest => play_breaks rest
  | .msgEmpty :: _ => true
  | .msgBody _ :: rest => play_breaks rest

/-- The deadline `think` is called with in `Agent.play` line 109:
`self.ts + timedelta(seconds=1/(self.fps+1))`, in seconds as an exact
rational. -/
def tick_deadline (ts : ℚ) (fps : ℕ) : ℚ := ts + 1 / (fps + 1)

/-- The tick period of a game running at `fps` frames per second:
`1/fps` seconds. -/
def tick_period (fps : ℕ) : ℚ := 1 / fps

/-- `SearchNode` (search_node.py lines 10-16): a state plus either no
parent (`root`, Python `parent=None`) or a parent node (`child`),
with cost, heuristic and the producing action. -/
inductive SearchNode where
  | root (state : GState) (cost heuristic : ℕ) (action : Option Direction)
  | child (state : GState) (parent : SearchNode) (cost heuristic : ℕ)
      (action : Option Direction)
deriving DecidableEq, Repr

/-- The `state` field of a `SearchNode`. -/
def SearchNode.state : SearchNode → GState
  | .root s _ _ _ => s
  | .child s _ _ _ _ => s

/-- `self.depth = parent.depth + 1 if parent != None else 0`
(search_node.py line 13). -/
def SearchNode.depth : SearchNode → ℕ
  | .root _ _ _ _ => 0
  | .child _ p _ _ _ => p.depth + 1

/-- `SearchNode.in_parent` (search_node.py lines 30-41): false at the
root; otherwise true when every cell of `newstate["body"]` is a member
of the parent's body and the traversal flags agree, else recurse on
the parent. -/
def SearchNode.in_parent : SearchNode → GState → Bool
  | .root _ _ _ _, _ => false
  | .child _ p _ _ _, newstate =>
    if (newstate.body.all fun b => decide (b ∈ p.state.body)) &&
        (p.state.traverse == newstate.traverse) then
      true
    else
      p.in_parent newstate

/-- The strict ancestors of a node: its parent, grandparent, ...,
up to and including the root. -/
def SearchNode.ancestors : SearchNode → List SearchNode
  | .root _ _ _ _ => []
  | .child _ p _ _ _ => p :: p.ancestors

/-- `SearchNode.in_parent` written with an explicit fuel bound on the
number of parent links followed; `none` means the fuel ran out before
the walk finished. -/
def SearchNode.in_parentFuel : ℕ → SearchNode → GState → Option Bool
  | 0, _, _ => none
  | _ + 1, .root _ _ _ _, _ => some false
  | fuel + 1, .child _ p _ _ _, newstate =>
    if (newstate.body.all fun b => decide (b ∈ p.state.body)) &&
        (p.state.traverse == newstate.traverse) then
      some true
    else
      SearchNode.in_parentFuel fuel p newstate

/-! ## Helper lemmas -/

theorem getD_mod_mem {α : Type} (l : List α) (r : ℕ) (d : α)
    (h : l ≠ []) : l.getD (r % l.length) d ∈ l := by
  have hlen : 0 < l.length := List.length_pos.mpr h
  have hlt : r % l.length < l.length := Nat.mod_lt _ hlen
  rw [List.getD_eq_getElem l d hlt]
  exact l.getElem_mem hlt

/-! ## Claims -/

/-- C3: whenever the legal-action list is non-empty, `_get_fast_action`
returns a member of it, whatever the outcome `r` of the internal random
choice. -/
theorem get_fast_action_mem (legal : List Direction) (head goal : ℤ × ℤ)
    (r : ℕ) (h : legal ≠ []) : get_fast_action legal head goal r ∈ legal := by
  unfold get_fast_action
  by_cases hp : fastActionProposal head goal ∈ legal
  · simp [hp]
  · simp only [hp, if_false, if_neg, h, ne_eq, not_false_iff, if_true]
    exact getD_mod_mem legal r .NORTH h

/-- Witness for C3: on the legal list `[NORTH, EAST]` with head `(0,0)`
and goal `(3,0)` (proposal `EAST`, legal) the returned action is a
member of the list; the random index is `5`. -/
theorem get_fast_action_mem_witness :
    ([Direction.NORTH, Direction.EAST] ≠ ([] : List Direction)) ∧
    get_fast_action [Direction.NORTH, Direction.EAST] (0, 0) (3, 0) 5 ∈
      [Direction.NORTH, Direction.EAST] :=
  ⟨by decide, get_fast_action_mem [Direction.NORTH, Direction.EAST]
    (0, 0) (3, 0) 5 (by decide)⟩

/-- C10: when the absolute offsets on the two axes are equal, the
proposal of `_get_fast_action` before the legality check is vertical
(`NORTH` when the head's y exceeds the goal's y, else `SOUTH`), and a
horizontal proposal (`WEST` or `EAST`) occurs only when the x offset
strictly exceeds the y offset. -/
theorem fastActionProposal_axis (head goal : ℤ × ℤ) :
    (|head.1 - goal.1| = |head.2 - goal.2| →
      fastActionProposal head goal =
        if head.2 > goal.2 then .NORTH else .SOUTH) ∧
    ((fastActionProposal head goal = .WEST ∨
        fastActionProposal head goal = .EAST) →
      |head.1 - goal.1| > |head.2 - goal.2|) := by
  constructor
  · intro h
    unfold fastActionProposal
    simp [h]
  · intro h
    unfold fastActionProposal at h
    by_cases hgt : |head.1 - goal.1| > |head.2 - goal.2|
    · exact hgt
    · exfalso
      simp only [hgt, if_false] at h
      by_cases hy : head.2 > goal.2 <;> simp [hy] at h

/-- Witness for C10: head `(2,7)`, goal `(4,5)` has equal offsets and a
vertical proposal; head `(9,0)`, goal `(2,0)` has a horizontal proposal
and a strictly larger x offset. -/
theorem fastActionProposal_axis_witness :
    (fastActionProposal (2, 7) (4, 5) =
      if (7 : ℤ) > 5 then .NORTH else .SOUTH) ∧
    |(9 : ℤ) - 2| > |(0 : ℤ) - 0| :=
  ⟨(fastActionProposal_axis (2, 7) (4, 5)).1 (by decide),
   (fastActionProposal_axis (9, 0) (2, 0)).2 (Or.inl (by decide))⟩

/-- C5: the action `act` sends is the original one exactly when it is
in the legal set; an illegal (or unset) chosen action is replaced by
the output of `_get_fast_action`, never sent as is. -/
theorem act_sent_spec (legal : List Direction) (head goal : ℤ × ℤ)
    (r : ℕ) (d : Direction) :
    (d ∉ legal →
      act_sent legal head goal r (some d) =
        get_fast_action legal head goal r) ∧
    (d ∈ legal → act_sent legal head goal r (some d) = d) := by
  constructor <;> intro h <;>
    simp [act_sent, action_not_possible, h]

/-- Witness for C5: with legal set `[NORTH]`, the illegal choice
`SOUTH` is replaced by the fast action, and the legal choice `NORTH`
is sent unchanged. -/
theorem act_sent_spec_witness :
    (act_sent [Direction.NORTH] (0, 0) (0, 5) 0 (some .SOUTH) =
      get_fast_action [Direction.NORTH] (0, 0) (0, 5) 0) ∧
    act_sent [Direction.NORTH] (0, 0) (0, 5) 0 (some .NORTH) = .NORTH :=
  ⟨(act_sent_spec [Direction.NORTH] (0, 0) (0, 5) 0 .SOUTH).1 (by decide),
   (act_sent_spec [Direction.NORTH] (0, 0) (0, 5) 0 .NORTH).2 (by decide)⟩

/-- C4: `_find_goal` prefers the closest known food; else, when a
power-up is known and the agent is not empowered, the closest power-up;
otherwise an exploration-frontier cell, where a first frontier cell
equal to the head is replaced by the result of exactly one retry. -/
theorem find_goal_priority (m : MappingView) (pe : Bool) :
    (m.observedFood = true →
      find_goal m pe = { strategy := "food", position := m.closestFood }) ∧
    (m.observedFood = false → m.observedSuper = true → pe = false →
      find_goal m pe = { strategy := "super", position := m.closestSuper }) ∧
    (m.observedFood = false → (m.observedSuper = false ∨ pe = true) →
      find_goal m pe = { strategy := "exploration", position :=
        if m.next_exploration 0 = m.state.body.headI then
          m.next_exploration 1
        else
          m.next_exploration 0 }) := by
  refine ⟨?_, ?_, ?_⟩
  · intro hf
    simp [find_goal, hf]
  · intro hf hs hpe
    simp [find_goal, hf, hs, hpe]
  · intro hf hsup
    rcases hsup with hs | hpe
    · by_cases he : m.next_exploration 0 = m.state.body.headI <;>
        simp [find_goal, hf, hs, he]
    · by_cases he : m.next_exploration 0 = m.state.body.headI <;>
        simp [find_goal, hf, hpe, he]

/-- Witness for C4: a mapping view with food known selects the food
goal at its closest food position. -/
theorem find_goal_priority_witness :
    find_goal
      { state := { body := [((0 : ℤ), (0 : ℤ))], traverse := false }
        observedFood := true
        observedSuper := true
        closestFood := (1, 2)
        closestSuper := (3, 4)
        next_exploration := fun _ => (9, 9)
        nothing_new_observed := fun _ => false } false =
      { strategy := "food", position := (1, 2) } :=
  (find_goal_priority
    { state := { body := [((0 : ℤ), (0 : ℤ))], traverse := false }
      observedFood := true
      observedSuper := true
      closestFood := (1, 2)
      closestSuper := (3, 4)
      next_exploration := fun _ => (9, 9)
      nothing_new_observed := fun _ => false } false).1 rfl

/-- C6: when the action plan is non-empty and the mapping reports
nothing new observed, `think` pops the plan's last element into
`action`, the plan shrinks by exactly one element, and the current
goal, search problem, search tree, `solution` field and
`perfect_effects` flag are unchanged. -/
theorem think_plan_reuse (m : MappingView) (legal : List Direction)
    (outcome : SearchOutcome) (r : ℕ) (st : AgentState)
    (hplan : st.actions_plan ≠ [])
    (hobs : m.nothing_new_observed st.perfect_effects = true) :
    (think m legal outcome r st).action = st.actions_plan.getLast? ∧
    (think m legal outcome r st).actions_plan = st.actions_plan.dropLast ∧
    (think m legal outcome r st).actions_plan.length + 1 =
      st.actions_plan.length ∧
    (think m legal outcome r st).current_goal = st.current_goal ∧
    (think m legal outcome r st).problem = st.problem ∧
    (think m legal outcome r st).tree = st.tree ∧
    (think m legal outcome r st).solution = st.solution ∧
    (think m legal outcome r st).perfect_effects = st.perfect_effects := by
  have hlen : st.actions_plan.length ≠ 0 := by
    simpa [List.length_eq_zero] using hplan
  have hcond : st.actions_plan.length ≠ 0 ∧
      m.nothing_new_observed st.perfect_effects = true := ⟨hlen, hobs⟩
  have hthink : think m legal outcome r st =
      { st with
        action := st.actions_plan.getLast?
        actions_plan := st.actions_plan.dropLast } := by
    unfold think
    rw [if_pos hcond]
  rw [hthink]
  refine ⟨rfl, rfl, ?_, rfl, rfl, rfl, rfl, rfl⟩
  have : st.actions_plan.dropLast.length = st.actions_plan.length - 1 :=
    st.actions_plan.length_dropLast
  simp only [this]
  omega

/-- Witness for C6: with plan `[EAST, NORTH]` and a mapping reporting
nothing new, `think` pops `NORTH` and keeps `[EAST]`. -/
theorem think_plan_reuse_witness :
    ((think
      { state := { body := [((0 : ℤ), (0 : ℤ))], traverse := false }
        observedFood := false
        observedSuper := false
        closestFood := (0, 0)
        closestSuper := (0, 0)
        next_exploration := fun _ => (9, 9)
        nothing_new_observed := fun _ => true }
      allDirections .noSolution 0
      { actions_plan := [.EAST, .NORTH]
        action := none
        solution := none
        current_goal := none
        problem := none
        tree := none
        perfect_effects := false }).action =
      ([Direction.EAST, Direction.NORTH] : List Direction).getLast?) ∧
    ((think
      { state := { body := [((0 : ℤ), (0 : ℤ))], traverse := false }
        observedFood := false
        observedSuper := false
        closestFood := (0, 0)
        closestSuper := (0, 0)
        next_exploration := fun _ => (9, 9)
        nothing_new_observed := fun _ => true }
      allDirections .noSolution 0
      { actions_plan := [.EAST, .NORTH]
        action := none
        solution := none
        current_goal := none
        problem := none
        tree := none
        perfect_effects := false }).actions_plan =
      ([Direction.EAST, Direction.NORTH] : List Direction).dropLast) :=
  ⟨(think_plan_reuse
      { state := { body := [((0 : ℤ), (0 : ℤ))], traverse := false }
        observedFood := false
        observedSuper := false
        closestFood := (0, 0)
        closestSuper := (0, 0)
        next_exploration := fun _ => (9, 9)
        nothing_new_observed := fun _ => true }
      allDirections .noSolution 0
      { actions_plan := [.EAST, .NORTH]
        action := none
        solution := none
        current_goal := none
        problem := none
        tree := none
        perfect_effects := false } (by decide) rfl).1,
   (think_plan_reuse
      { state := { body := [((0 : ℤ), (0 : ℤ))], traverse := false }
        observedFood := false
        observedSuper := false
        closestFood := (0, 0)
        closestSuper := (0, 0)
        next_exploration := fun _ => (9, 9)
        nothing_new_observed := fun _ => true }
      allDirections .noSolution 0
      { actions_plan := [.EAST, .NORTH]
        action := none
        solution := none
        current_goal := none
        problem := none
        tree := none
        perfect_effects := false } (by decide) rfl).2.1⟩

/-- C8: the deadline `think` receives is the observation timestamp plus
`1/(fps+1)` seconds; for every `fps ≥ 1` it lies strictly between the
timestamp and the timestamp plus one tick period `1/fps`, the safety
margin being exactly `1/(fps*(fps+1))` seconds. -/
theorem tick_deadline_margin (ts : ℚ) (fps : ℕ) (h : 1 ≤ fps) :
    ts < tick_deadline ts fps ∧
    tick_deadline ts fps < ts + tick_period fps ∧
    (ts + tick_period fps) - tick_deadline ts fps =
      1 / ((fps : ℚ) * (fps + 1)) := by
  have h0 : (0 : ℚ) < (fps : ℚ) := by exact_mod_cast h
  have h1 : (0 : ℚ) < (fps : ℚ) + 1 := by linarith
  unfold tick_deadline tick_period
  refine ⟨?_, ?_, ?_⟩
  · have hpos : 0 < 1 / ((fps : ℚ) + 1) := by positivity
    linarith
  · have hlt : 1 / ((fps : ℚ) + 1) < 1 / (fps : ℚ) :=
      one_div_lt_one_div_of_lt h0 (by linarith)
    linarith
  · field_simp
    ring

/-- Witness for C8: at `fps = 1` and `ts = 0` the deadline is `1/2`,
strictly between `0` and the tick period `1`, with margin `1/2`. -/
theorem tick_deadline_margin_witness :
    (0 : ℚ) < tick_deadline 0 1 ∧
    tick_deadline 0 1 < 0 + tick_period 1 ∧
    (0 + tick_period 1) - tick_deadline 0 1 =
      1 / (((1 : ℕ) : ℚ) * ((1 : ℕ) + 1)) :=
  tick_deadline_margin 0 1 (by norm_num)

/-- C7: `in_parent` answers true exactly when some strict ancestor
(parent, grandparent, ..., root) has the same traversal flag as the
candidate state and every cell of the candidate's body occurs in that
ancestor's body. -/
theorem in_parent_iff_ancestor (n : SearchNode) (newstate : GState) :
    n.in_parent newstate = true ↔
      ∃ a ∈ n.ancestors, a.state.traverse = newstate.traverse ∧
        ∀ b ∈ newstate.body, b ∈ a.state.body := by
  induction n with
  | root s c he a =>
    simp [SearchNode.in_parent, SearchNode.ancestors]
  | child s p c he a ih =>
    show (if (newstate.body.all fun b => decide (b ∈ p.state.body)) &&
        (p.state.traverse == newstate.traverse) then true
      else p.in_parent newstate) = true ↔
      ∃ a' ∈ p :: p.ancestors, a'.state.traverse = newstate.traverse ∧
        ∀ b ∈ newstate.body, b ∈ a'.state.body
    by_cases hc : ((newstate.body.all fun b => decide (b ∈ p.state.body)) &&
        (p.state.traverse == newstate.traverse)) = true
    · rw [if_pos hc]
      simp only [Bool.and_eq_true, List.all_eq_true, decide_eq_true_eq,
        beq_iff_eq] at hc
      simp only [true_iff, eq_self_iff_true]
      exact ⟨p, List.mem_cons_self p p.ancestors, hc.2, hc.1⟩
    · rw [if_neg hc]
      simp only [Bool.and_eq_true, List.all_eq_true, decide_eq_true_eq,
        beq_iff_eq, not_and_or] at hc
      rw [ih]
      constructor
      · rintro ⟨a', ha', hP⟩
        exact ⟨a', List.mem_cons_of_mem p ha', hP⟩
      · rintro ⟨a', ha', htr, hsub⟩
        rcases List.mem_cons.mp ha' with heq | ha'
        · subst heq
          rcases hc with hc | hc
          · exact absurd hsub (by simpa using hc)
          · exact absurd htr (by simpa using hc)
        · exact ⟨a', ha', htr, hsub⟩

/-- C9: the parent-chain walk of `in_parent` terminates: with any fuel
bound exceeding the node's depth, the fuel-bounded walk finishes and
agrees with `in_parent`, which is itself defined by structural
recursion on the parent chain. -/
theorem in_parentFuel_eq (n : SearchNode) (newstate : GState) (fuel : ℕ)
    (h : n.depth < fuel) :
    SearchNode.in_parentFuel fuel n newstate = some (n.in_parent newstate) := by
  induction n generalizing fuel with
  | root s c he a =>
    cases fuel with
    | zero => omega
    | succ f => rfl
  | child s p c he a ih =>
    cases fuel with
    | zero => omega
    | succ f =>
      show (if (newstate.body.all fun b => decide (b ∈ p.state.body)) &&
          (p.state.traverse == newstate.traverse) then some true
        else SearchNode.in_parentFuel f p newstate) =
        some (SearchNode.in_parent (.child s p c he a) newstate)
      by_cases hc : ((newstate.body.all fun b => decide (b ∈ p.state.body)) &&
          (p.state.traverse == newstate.traverse)) = true
      · rw [if_pos hc]
        show _ = some (if _ then true else p.in_parent newstate)
        rw [if_pos hc]
      · rw [if_neg hc]
        have hd : p.depth < f := by
          have : SearchNode.depth (.child s p c he a) = p.depth + 1 := rfl
          omega
        rw [ih f hd]
        show _ = some (if _ then true else p.in_parent newstate)
        rw [if_neg hc]

/-- Witness for C9: a depth-1 chain walked with fuel 2 returns the same
answer as `in_parent`. -/
theorem in_parentFuel_eq_witness :
    SearchNode.depth
      (.child { body := [((1 : ℤ), (0 : ℤ))], traverse := false }
        (.root { body := [((0 : ℤ), (0 : ℤ))], traverse := false } 0 0 none)
        1 1 (some .EAST)) < 2 ∧
    SearchNode.in_parentFuel 2
      (.child { body := [((1 : ℤ), (0 : ℤ))], traverse := false }
        (.root { body := [((0 : ℤ), (0 : ℤ))], traverse := false } 0 0 none)
        1 1 (some .EAST))
      { body := [((0 : ℤ), (0 : ℤ))], traverse := false } =
      some (SearchNode.in_parent
        (.child { body := [((1 : ℤ), (0 : ℤ))], traverse := false }
          (.root { body := [((0 : ℤ), (0 : ℤ))], traverse := false } 0 0 none)
          1 1 (some .EAST))
        { body := [((0 : ℤ), (0 : ℤ))], traverse := false }) :=
  ⟨by decide,
   in_parentFuel_eq
    (.child { body := [((1 : ℤ), (0 : ℤ))], traverse := false }
      (.root { body := [((0 : ℤ), (0 : ℤ))], traverse := false } 0 0 none)
      1 1 (some .EAST))
    { body := [((0 : ℤ), (0 : ℤ))], traverse := false } 2 (by decide)⟩

/-- C1: at a planning cycle whose search raises `TimeLimitExceeded`,
`think` assigns the emergency action to the unused `solution` field and
leaves `action` at its stale previous value: with head `(5,5)`, food
goal `(5,9)` and all four moves legal the fast action is `SOUTH`, yet
the `action` field keeps `NORTH` and differs from the fast action. -/
theorem think_timeout_keeps_stale_action :
    get_fast_action allDirections (5, 5) (5, 9) 0 = .SOUTH ∧
    (think
      { state := { body := [((5 : ℤ), (5 : ℤ))], traverse := false }
        observedFood := true
        observedSuper := false
        closestFood := (5, 9)
        closestSuper := (0, 0)
        next_exploration := fun _ => (0, 0)
        nothing_new_observed := fun _ => false }
      allDirections .timeLimitExceeded 0
      { actions_plan := []
        action := some .NORTH
        solution := none
        current_goal := none
        problem := none
        tree := none
        perfect_effects := false }).solution = some .SOUTH ∧
    (think
      { state := { body := [((5 : ℤ), (5 : ℤ))], traverse := false }
        observedFood := true
        observedSuper := false
        closestFood := (5, 9)
        closestSuper := (0, 0)
        next_exploration := fun _ => (0, 0)
        nothing_new_observed := fun _ => false }
      allDirections .timeLimitExceeded 0
      { actions_plan := []
        action := some .NORTH
        solution := none
        current_goal := none
        problem := none
        tree := none
        perfect_effects := false }).action = some .NORTH ∧
    (think
      { state := { body := [((5 : ℤ), (5 : ℤ))], traverse := false }
        observedFood := true
        observedSuper := false
        closestFood := (5, 9)
        closestSuper := (0, 0)
        next_exploration := fun _ => (0, 0)
        nothing_new_observed := fun _ => false }
      allDirections .timeLimitExceeded 0
      { actions_plan := []
        action := some .NORTH
        solution := none
        current_goal := none
        problem := none
        tree := none
        perfect_effects := false }).action ≠
      some (get_fast_action allDirections (5, 5) (5, 9) 0) :=
  ⟨rfl, rfl, rfl, by decide⟩

/-- C2: the clean-close handler of `play` only logs, so on the trace
`[closeOK, msgEmpty]` the loop performs a second receive after the
clean close, and on the trace `[closeOK]` the loop has not exited. -/
theorem play_retries_after_clean_close :
    play_receive_count [NetEvent.closeOK, NetEvent.msgEmpty] = 2 ∧
    play_breaks [NetEvent.closeOK] = false := by
  decide
